import Mathlib

/-!
# Verification of the DeltaMaster TopM/Addison merge pipeline

Shallow embedding of `src/deltamaster_merge.py` (function `main`).  The
script is a pandas pipeline; numeric cells are IEEE-754 doubles, so the
embedding uses an extended-rational value type `FVal` that keeps the
IEEE special values (`inf`, `-inf`, `nan`) and models pandas "null" as
`nan` (which is what a missing float cell is in pandas), while doing the
finite arithmetic exactly over `ℚ`.

Column-name ↔ field-name mapping for the TopM table (after the renaming
in step 2 of the script):
  "Hilfsmittel"                     → `hilfsmittel`
  "Filiale"                         → `filiale`
  "KSt"                             → `kst` (first 5 characters of Filiale)
  "Aufträge"                        → `auftraege`
  "(1) Umsatz-\nberechnung"         → `umsatzberechnung`
  "(2) Netto EK"                    → `nettoEk`
  "(3) Netto EK\nOhne WK"           → `nettoEkOhneWk`
  "(4) WK EK"                       → `wkEk`
  "AP_EK_Verrechnung_WK_mit_FP"     → `apEkVerrechnung`
  "(5) =\n(3) + (4)"                → `summe35`
  "(6) DB I =\n(1) - (5)"           → `db1`
  "AP DB I mit FP"                  → `apDb1MitFp`
  "(7) DB I % =\n(6) / (1)"         → `ratio7`
  "AP DB I % mit FP"                → `ratioApFp`
  "Modifikationen"                  → `modifikationen`
  "DB I % Modifikationen"           → `ratioMod`
  "Modifikationen 09 & 32"          → `mod0932`
  "DB I % Modifikationen 09 & 32"   → `ratioMod0932`
-/

/-- A pandas float cell: an exact rational, one of the two infinities, or
NaN.  pandas represents a null numeric cell as NaN, so `nan` is also the
embedding of "null". -/
inductive FVal where
  | num (q : ℚ)
  | inf
  | ninf
  | nan
deriving DecidableEq, Repr

namespace FVal

/-- IEEE negation. -/
def fneg : FVal → FVal
  | num q => num (-q)
  | inf => ninf
  | ninf => inf
  | nan => nan

/-- IEEE addition (exact on finite values). -/
def fadd : FVal → FVal → FVal
  | nan, _ => nan
  | _, nan => nan
  | num a, num b => num (a + b)
  | num _, inf => inf
  | num _, ninf => ninf
  | inf, num _ => inf
  | ninf, num _ => ninf
  | inf, inf => inf
  | ninf, ninf => ninf
  | inf, ninf => nan
  | ninf, inf => nan

/-- IEEE subtraction. -/
def fsub (a b : FVal) : FVal := fadd a (fneg b)

/-- IEEE multiplication (exact on finite values; `inf * 0 = nan`). -/
def fmul : FVal → FVal → FVal
  | nan, _ => nan
  | _, nan => nan
  | num a, num b => num (a * b)
  | num a, inf => if a = 0 then nan else if 0 < a then inf else ninf
  | num a, ninf => if a = 0 then nan else if 0 < a then ninf else inf
  | inf, num b => if b = 0 then nan else if 0 < b then inf else ninf
  | ninf, num b => if b = 0 then nan else if 0 < b then ninf else inf
  | inf, inf => inf
  | ninf, ninf => inf
  | inf, ninf => ninf
  | ninf, inf => ninf

/-- IEEE division (exact on finite values).  Division of a nonzero finite
value by zero yields a signed infinity; `0 / 0` yields NaN; no exception
is ever raised — this is exactly what numpy/pandas float division does. -/
def fdiv : FVal → FVal → FVal
  | nan, _ => nan
  | _, nan => nan
  | num a, num b =>
      if b = 0 then (if a = 0 then nan else if 0 < a then inf else ninf)
      else num (a / b)
  | num _, inf => num 0
  | num _, ninf => num 0
  | inf, num b => if 0 ≤ b then inf else ninf
  | ninf, num b => if 0 ≤ b then ninf else inf
  | inf, inf => nan
  | inf, ninf => nan
  | ninf, inf => nan
  | ninf, ninf => nan

/-- Round half to even on the integers, the tie rule of IEEE-754 used by
`numpy.round` / `DataFrame.round(0)`. -/
def roundHalfEven (q : ℚ) : ℤ :=
  let f := q.floor
  let r := q - f
  if r < 1 / 2 then f
  else if 1 / 2 < r then f + 1
  else if f % 2 = 0 then f else f + 1

/-- pandas `Series.round(0)`: round finite values half-to-even, keep the
special values. -/
def fround : FVal → FVal
  | num q => num (roundHalfEven q)
  | inf => inf
  | ninf => ninf
  | nan => nan

/-- pandas `Series.fillna(0)`: replace NaN (pandas null) by `0`; all other
values, infinities included, are kept. -/
def fillna0 (v : FVal) : FVal := if v = nan then num 0 else v

/-- pandas `groupby(...).sum()` of a column: NaN entries are skipped
(default `skipna`), the remainder is summed left to right; the empty sum
is `0`. -/
def psum (l : List FVal) : FVal :=
  (l.filter (fun v => decide (v ≠ nan))).foldl fadd (num 0)

end FVal

open FVal

/-- One data row of the TopM table right after step 2 of the script
(first two columns renamed to `Hilfsmittel`/`Filiale`); the nine numeric
input columns of the report. -/
structure Row where
  hilfsmittel : String
  filiale : String
  auftraege : FVal
  umsatzberechnung : FVal
  nettoEk : FVal
  nettoEkOhneWk : FVal
  wkEk : FVal
  apEkVerrechnung : FVal
  summe35 : FVal
  db1 : FVal
  apDb1MitFp : FVal
deriving DecidableEq, Repr

/-- Step 2: `df["KSt"] = df["Filiale"].astype(str).str[:5]`. -/
def Row.kst (r : Row) : String := r.filiale.take 5

/-- The two sentinel `Hilfsmittel` values dropped in step 3:
`["Alle Hilfsmittel", "08 - Einlagen"]`. -/
def sentinelCategories : List String := ["Alle Hilfsmittel", "08 - Einlagen"]

/-- Override set A of step 5 (`Modifikationen`). -/
def setA : List String := ["10 - Gehhilfen", "18 - Kranken-/ Behindertenfahrzeuge"]

/-- Override set B of step 5a (`Modifikationen 09 & 32`). -/
def setB : List String := ["09 - Elektrostimulationsgeräte", "32 - Therapeutische Bewegungsgeräte"]

/-- Step 3: `df_clean = df[~df["Hilfsmittel"].isin([...])]`. -/
def cleanRows (rows : List Row) : List Row :=
  rows.filter (fun r => decide (r.hilfsmittel ∉ sentinelCategories))

/-- A TopM row with the six derived columns of steps 4–5a appended. -/
structure CleanRow extends Row where
  ratio7 : FVal
  ratioApFp : FVal
  modifikationen : FVal
  ratioMod : FVal
  mod0932 : FVal
  ratioMod0932 : FVal
deriving DecidableEq, Repr

def CleanRow.kst (r : CleanRow) : String := r.toRow.kst

/-- Steps 4, 5 and 5a of the script, per row (every derived column is a
pointwise function of the row it is computed on):
  * `"(7) DB I %"  = db1 / umsatzberechnung`
  * `"AP DB I % mit FP" = apDb1MitFp / umsatzberechnung`
  * `Modifikationen = np.where(hilfsmittel ∈ setA, apDb1MitFp, db1)`
  * `"DB I % Modifikationen" = modifikationen / umsatzberechnung`
  * `"Modifikationen 09 & 32"`: a copy of `Modifikationen`, overwritten
    with `umsatzberechnung * 0.80` on the rows with `hilfsmittel ∈ setB`
  * `"DB I % Modifikationen 09 & 32" = mod0932 / umsatzberechnung` -/
def deriveRow (r : Row) : CleanRow :=
  let modif := if r.hilfsmittel ∈ setA then r.apDb1MitFp else r.db1
  let mod0932 := if r.hilfsmittel ∈ setB then fmul r.umsatzberechnung (num (4 / 5)) else modif
  { r with
    ratio7 := fdiv r.db1 r.umsatzberechnung
    ratioApFp := fdiv r.apDb1MitFp r.umsatzberechnung
    modifikationen := modif
    ratioMod := fdiv modif r.umsatzberechnung
    mod0932 := mod0932
    ratioMod0932 := fdiv mod0932 r.umsatzberechnung }

/-- Steps 3–5a composed: filter the sentinel categories, then append the
derived columns row by row. -/
def deriveTable (rows : List Row) : List CleanRow :=
  (cleanRows rows).map deriveRow

/-- The lexicographic string order used for sorting, stated on the
character lists; it is the same relation as `String`'s `≤`
(`strLe_iff_le`), in a form the kernel can evaluate. -/
def strLe (a b : String) : Prop := a.data ≤ b.data

instance : DecidableRel strLe :=
  fun a b => inferInstanceAs (Decidable (a.data ≤ b.data))

instance : IsTotal String strLe :=
  ⟨fun a b => le_total a.data b.data⟩

instance : IsTrans String strLe :=
  ⟨fun _ _ _ hab hbc => le_trans hab hbc⟩

lemma strLe_iff_le (a b : String) : strLe a b ↔ a ≤ b := by
  rw [String.le_iff_toList_le]
  exact Iff.rfl

/-- The values of a `Series` that occur with maximal multiplicity,
deduplicated (pandas `Series.mode()` up to order). -/
def modeCandidates (l : List String) : List String :=
  l.dedup.filter (fun a => l.all (fun b => decide (l.count b ≤ l.count a)))

/-- Step 8, `x.mode().iloc[0]`: pandas `Series.mode()` returns the
most-frequent values **in ascending sorted order**, and `.iloc[0]` takes
the first, i.e. the lexicographically least of the modal values. -/
def modePandas (l : List String) : String :=
  (List.insertionSort strLe (modeCandidates l)).headD ""

/-- The distinct `KSt` keys in ascending order: pandas
`groupby("KSt", ...)` with the default `sort=True` emits one group per
distinct key, sorted ascending. -/
def kstKeys (rows : List CleanRow) : List String :=
  List.insertionSort strLe (rows.map CleanRow.kst).dedup

/-- The rows of one `KSt` group. -/
def groupRows (rows : List CleanRow) (k : String) : List CleanRow :=
  rows.filter (fun r => decide (r.kst = k))

/-- One row of `df_filiale`: per-`KSt` sums of all numeric columns except
the four percentage columns, the four percentage columns recomputed from
those sums, and the representative `Filiale` label. -/
structure AggRow where
  kstKey : String
  filiale : String
  auftraege : FVal
  umsatzberechnung : FVal
  nettoEk : FVal
  nettoEkOhneWk : FVal
  wkEk : FVal
  apEkVerrechnung : FVal
  summe35 : FVal
  db1 : FVal
  apDb1MitFp : FVal
  modifikationen : FVal
  mod0932 : FVal
  ratio7 : FVal
  ratioApFp : FVal
  ratioMod : FVal
  ratioMod0932 : FVal
deriving DecidableEq, Repr

/-- Steps 6–8 of the script for a single `KSt` group `k`:
`sum_cols` (all numeric columns that are not one of the four percentage
columns — the nine inputs plus the two derived `Modifikationen` columns)
are summed over the group, then the four percentage columns are
recomputed as quotients of the group sums, and the representative
`Filiale` is the pandas mode of the group's `Filiale` values. -/
def aggRowFor (rows : List CleanRow) (k : String) : AggRow :=
  let g := groupRows rows k
  let sUmsatz := psum (g.map (fun r => r.umsatzberechnung))
  let sDb1 := psum (g.map (fun r => r.db1))
  let sApFp := psum (g.map (fun r => r.apDb1MitFp))
  let sMod := psum (g.map (fun r => r.modifikationen))
  let sMod0932 := psum (g.map (fun r => r.mod0932))
  { kstKey := k
    filiale := modePandas (g.map (fun r => r.filiale))
    auftraege := psum (g.map (fun r => r.auftraege))
    umsatzberechnung := sUmsatz
    nettoEk := psum (g.map (fun r => r.nettoEk))
    nettoEkOhneWk := psum (g.map (fun r => r.nettoEkOhneWk))
    wkEk := psum (g.map (fun r => r.wkEk))
    apEkVerrechnung := psum (g.map (fun r => r.apEkVerrechnung))
    summe35 := psum (g.map (fun r => r.summe35))
    db1 := sDb1
    apDb1MitFp := sApFp
    modifikationen := sMod
    mod0932 := sMod0932
    ratio7 := fdiv sDb1 sUmsatz
    ratioApFp := fdiv sApFp sUmsatz
    ratioMod := fdiv sMod sUmsatz
    ratioMod0932 := fdiv sMod0932 sUmsatz }

/-- Steps 6–8: `df_filiale`, one row per distinct `KSt`, in ascending
key order. -/
def aggregateFiliale (rows : List CleanRow) : List AggRow :=
  (kstKeys rows).map (aggRowFor rows)

/-- One row of `df2_new`, the reshaped Addison table of step 10: index
`KSt`, one column per relevant `Art` from the `Wert4` pivot, plus the two
`Kum` columns from the `Wert6` pivot (no `Kum` column for `Rohergebnis`).
A (KSt, Art) combination absent from the raw data is a NaN cell. -/
structure AddisonRow where
  kstKey : String
  umsatzerloese : FVal
  aufwendungen : FVal
  rohergebnis : FVal
  umsatzerloeseKum : FVal
  aufwendungenKum : FVal
deriving DecidableEq, Repr

/-- The final merged row: all `df_filiale` columns, the Addison columns
after the `fillna(0)` of step 12, and `"Aufwendungen final"`. -/
structure MergedRow extends AggRow where
  umsatzerloese : FVal
  aufwendungen : FVal
  rohergebnis : FVal
  umsatzerloeseKum : FVal
  aufwendungenKum : FVal
  aufwendungenFinal : FVal
deriving DecidableEq, Repr

/-- Steps 11–12 for one left row: `merge(on="KSt", how="left")` against a
right table with unique keys (the pivot index), so a left row picks up
the first (only) matching right row's columns, or all-NaN columns when no
right key matches; then `Umsatzerlöse` and `Aufwendungen für bez. Lfg.
und Lst.` are `fillna(0)`-ed and `Aufwendungen final` is computed as
`round₀(Umsatzerlöse * (1 - "DB I % Modifikationen") + Aufwendungen)`. -/
def mergeRow (a : AggRow) (right : List AddisonRow) : MergedRow :=
  let m := right.find? (fun b => decide (b.kstKey = a.kstKey))
  let u := fillna0 (match m with | some b => b.umsatzerloese | none => nan)
  let aufw := fillna0 (match m with | some b => b.aufwendungen | none => nan)
  { a with
    umsatzerloese := u
    aufwendungen := aufw
    rohergebnis := match m with | some b => b.rohergebnis | none => nan
    umsatzerloeseKum := match m with | some b => b.umsatzerloeseKum | none => nan
    aufwendungenKum := match m with | some b => b.aufwendungenKum | none => nan
    aufwendungenFinal := fround (fadd (fmul u (fsub (num 1) a.ratioMod)) aufw) }

/-- Steps 11–12: `df_merged` with `"Aufwendungen final"`. -/
def mergeTables (agg : List AggRow) (right : List AddisonRow) : List MergedRow :=
  agg.map (fun a => mergeRow a right)

/-- The whole numeric pipeline on the TopM rows (steps 3–12).  Steps
13–16 (percent formatting, column selection, Excel styling) neither add,
drop nor reorder rows. -/
def pipeline (rows : List Row) (right : List AddisonRow) : List MergedRow :=
  mergeTables (aggregateFiliale (deriveTable rows)) right

/-- The TopM column names accessed by steps 4–5a of the script. -/
def colUmsatz : String := "(1) Umsatz-\nberechnung"

def colDb1 : String := "(6) DB I =\n(1) - (5)"

def colApFp : String := "AP DB I mit FP"

def colHilfsmittel : String := "Hilfsmittel"

def colRatio7 : String := "(7) DB I % =\n(6) / (1)"

def colRatioApFp : String := "AP DB I % mit FP"

def colMod : String := "Modifikationen"

def colRatioMod : String := "DB I % Modifikationen"

def colMod0932 : String := "Modifikationen 09 & 32"

def colRatioMod0932 : String := "DB I % Modifikationen 09 & 32"

/-- A column-level action of the script: `read c` is a column access
`df_clean[c]` (pandas raises `KeyError(c)` — an error carrying only that
single column name — when `c` is absent; the script has no schema check
of its own), `assign c` is an assignment binding column `c`. -/
inductive ColAction where
  | read (c : String)
  | assign (c : String)
deriving DecidableEq, Repr

/-- The ordered sequence of column reads and assignments performed by
steps 4–5a of the script (Python evaluates the right hand side of an
assignment left to right, then binds the target column; the arguments of
`np.where` are evaluated left to right; the masked `.loc` assignment of
step 5a reads `(1) Umsatz-\nberechnung` on the right before writing
`Modifikationen 09 & 32`). -/
def accessScript : List ColAction :=
  [ColAction.read colDb1, ColAction.read colUmsatz, ColAction.assign colRatio7,
   ColAction.read colApFp, ColAction.read colUmsatz, ColAction.assign colRatioApFp,
   ColAction.read colHilfsmittel, ColAction.read colApFp, ColAction.read colDb1,
   ColAction.assign colMod,
   ColAction.read colMod, ColAction.read colUmsatz, ColAction.assign colRatioMod,
   ColAction.read colMod, ColAction.assign colMod0932,
   ColAction.read colHilfsmittel,
   ColAction.read colUmsatz, ColAction.assign colMod0932,
   ColAction.read colMod0932, ColAction.read colUmsatz, ColAction.assign colRatioMod0932]

/-- Run an access script against the set of present columns: the first
read of an absent column stops the run with that column's `KeyError`. -/
def runScript : List ColAction → List String → Except String (List String)
  | [], cols => Except.ok cols
  | ColAction.read c :: rest, cols =>
      if c ∈ cols then runScript rest cols else Except.error c
  | ColAction.assign c :: rest, cols => runScript rest (cols.insert c)

/-- The schema behaviour of steps 4–5a of the script on a TopM table
with column list `cols`. -/
def deriveCols (cols : List String) : Except String (List String) :=
  runScript accessScript cols

lemma aggRowFor_kstKey (rows : List CleanRow) (k : String) :
    (aggRowFor rows k).kstKey = k := rfl

lemma mergeRow_kstKey (a : AggRow) (right : List AddisonRow) :
    (mergeRow a right).kstKey = a.kstKey := rfl

lemma exists_count_max (l : List String) (h : l ≠ []) :
    ∃ a ∈ l.dedup, ∀ b ∈ l, l.count b ≤ l.count a := by
  cases heq : l.dedup.argmax (fun a => l.count a) with
  | none =>
      exact absurd (List.argmax_eq_none.mp heq) (by simpa [List.dedup_eq_nil] using h)
  | some m =>
      have hmem : m ∈ l.dedup.argmax (fun a => l.count a) := Option.mem_def.mpr heq
      exact ⟨m, List.argmax_mem hmem,
        fun b hb => List.le_of_mem_argmax (List.mem_dedup.mpr hb) hmem⟩

lemma mem_modeCandidates (l : List String) (a : String) :
    a ∈ modeCandidates l ↔ a ∈ l ∧ ∀ b ∈ l, l.count b ≤ l.count a := by
  simp [modeCandidates, List.mem_filter, List.mem_dedup, List.all_eq_true]

lemma modeCandidates_ne_nil (l : List String) (h : l ≠ []) :
    modeCandidates l ≠ [] := by
  obtain ⟨a, ha, hmax⟩ := exists_count_max l h
  exact List.ne_nil_of_mem ((mem_modeCandidates l a).mpr ⟨List.mem_dedup.mp ha, hmax⟩)

/-- What `x.mode().iloc[0]` returns on a nonempty series: a value of the
series of maximal multiplicity, and the `≤`-least such value. -/
lemma modePandas_spec (l : List String) (h : l ≠ []) :
    modePandas l ∈ l ∧
    (∀ b ∈ l, l.count b ≤ l.count (modePandas l)) ∧
    (∀ b ∈ l, l.count b = l.count (modePandas l) → modePandas l ≤ b) := by
  have hperm : List.Perm (List.insertionSort strLe (modeCandidates l))
      (modeCandidates l) :=
    List.perm_insertionSort _ _
  obtain ⟨a, ha⟩ := List.exists_mem_of_ne_nil (modeCandidates l) (modeCandidates_ne_nil l h)
  have hsne : List.insertionSort strLe (modeCandidates l) ≠ [] :=
    List.ne_nil_of_mem (hperm.mem_iff.mpr ha)
  cases hxt : List.insertionSort strLe (modeCandidates l) with
  | nil => exact absurd hxt hsne
  | cons x t =>
    have hsorted := List.sorted_insertionSort strLe (modeCandidates l)
    rw [hxt] at hsorted hperm
    have hhead : modePandas l = x := by unfold modePandas; rw [hxt]; rfl
    have hxc : x ∈ modeCandidates l := hperm.mem_iff.mp (List.mem_cons_self x t)
    obtain ⟨hxl, hxmax⟩ := (mem_modeCandidates l x).mp hxc
    refine ⟨hhead ▸ hxl, fun b hb => ?_, fun b hb hcnt => ?_⟩
    · rw [hhead]; exact hxmax b hb
    · rw [hhead] at hcnt ⊢
      have hbc : b ∈ modeCandidates l :=
        (mem_modeCandidates l b).mpr
          ⟨hb, fun c hc => le_of_le_of_eq (hxmax c hc) hcnt.symm⟩
      have hbs : b ∈ x :: t := hperm.mem_iff.mpr hbc
      rcases List.mem_cons.mp hbs with rfl | hbt
      · exact le_rfl
      · exact (strLe_iff_le x b).mp (List.rel_of_sorted_cons hsorted b hbt)

/-- A representative non-sentinel TopM row used by the concrete witnesses. -/
def sampleRow : Row :=
  { hilfsmittel := "05 - Bandagen"
    filiale := "11111 Musterstadt"
    auftraege := num 2
    umsatzberechnung := num 100
    nettoEk := num 40
    nettoEkOhneWk := num 30
    wkEk := num 10
    apEkVerrechnung := num 12
    summe35 := num 40
    db1 := num 60
    apDb1MitFp := num 55 }

/-- C6: `Modifikationen` takes the row's `AP DB I mit FP` on the set-A
categories — independently of `db1` — and the row's `(6) DB I` figure
otherwise; both branches are plain field reads of the same row, defined
for every row. -/
theorem modifikationen_setA_override (r : Row) :
    (r.hilfsmittel ∈ setA → (deriveRow r).modifikationen = r.apDb1MitFp) ∧
    (r.hilfsmittel ∉ setA → (deriveRow r).modifikationen = r.db1) := by
  constructor <;> intro hmem <;> simp [deriveRow, hmem]

theorem modifikationen_setA_override_witness :
    (deriveRow { sampleRow with hilfsmittel := "10 - Gehhilfen" }).modifikationen =
      ({ sampleRow with hilfsmittel := "10 - Gehhilfen" } : Row).apDb1MitFp ∧
    (deriveRow sampleRow).modifikationen = sampleRow.db1 :=
  ⟨(modifikationen_setA_override { sampleRow with hilfsmittel := "10 - Gehhilfen" }).1
      (by decide),
   (modifikationen_setA_override sampleRow).2 (by decide)⟩

/-- C5: `Modifikationen 09 & 32` is forcibly `umsatzberechnung * 0.80` on
the set-B categories, whatever the other fields hold (in particular
whatever the set-A rule produced for `Modifikationen`), and is a plain
copy of `Modifikationen` on every other row. -/
theorem mod0932_setB_override (r : Row) :
    (r.hilfsmittel ∈ setB →
      (deriveRow r).mod0932 = fmul r.umsatzberechnung (num (4 / 5))) ∧
    (r.hilfsmittel ∉ setB →
      (deriveRow r).mod0932 = (deriveRow r).modifikationen) := by
  constructor <;> intro hmem <;> simp [deriveRow, hmem]

theorem mod0932_setB_override_witness :
    (deriveRow { sampleRow with hilfsmittel := "09 - Elektrostimulationsgeräte" }).mod0932 =
      fmul ({ sampleRow with hilfsmittel := "09 - Elektrostimulationsgeräte" } : Row).umsatzberechnung
        (num (4 / 5)) ∧
    (deriveRow sampleRow).mod0932 = (deriveRow sampleRow).modifikationen :=
  ⟨(mod0932_setB_override { sampleRow with hilfsmittel := "09 - Elektrostimulationsgeräte" }).1
      (by decide),
   (mod0932_setB_override sampleRow).2 (by decide)⟩

/-- The IEEE quotient of the finite numerator `a` by the float zero: NaN
(a pandas null) exactly when `a = 0`, a signed infinity otherwise. -/
def divByZero (a : ℚ) : FVal := if a = 0 then nan else if 0 < a then inf else ninf

/-- A row whose revenue column is exactly zero. -/
def zeroRevRow : Row :=
  { sampleRow with umsatzberechnung := num 0, db1 := num 60, apDb1MitFp := num (-5) }

/-- C2 counterexample: on a row with revenue exactly `0` and a nonzero
`(6) DB I` figure the script's `"(7) DB I %"` cell is `+∞` — numpy float
division by zero — and not null (NaN) and not `0`. -/
theorem ratio_zero_revenue_counterexample :
    zeroRevRow.umsatzberechnung = num 0 ∧
    (deriveRow zeroRevRow).ratio7 = inf ∧
    (inf : FVal) ≠ nan ∧ (inf : FVal) ≠ num 0 := by
  refine ⟨rfl, ?_, by decide, by decide⟩
  decide

/-- C2 amended: on a row with revenue exactly `0`, each of the four ratio
cells is the IEEE quotient of its (finite) numerator by zero — null (NaN)
exactly when the numerator is `0`, `+∞`/`-∞` when it is positive/negative
— and no divide-by-zero error is raised (the operations are total).  For
a set-B row the fourth ratio is always NaN, because its numerator is the
row's revenue times `0.80`, i.e. `0`. -/
theorem ratio_at_zero_revenue (r : Row) (a b : ℚ)
    (hu : r.umsatzberechnung = num 0) (hd : r.db1 = num a) (hm : r.apDb1MitFp = num b) :
    (deriveRow r).ratio7 = divByZero a ∧
    (deriveRow r).ratioApFp = divByZero b ∧
    (deriveRow r).ratioMod = divByZero (if r.hilfsmittel ∈ setA then b else a) ∧
    (deriveRow r).ratioMod0932 =
      (if r.hilfsmittel ∈ setB then nan
       else divByZero (if r.hilfsmittel ∈ setA then b else a)) := by
  by_cases hA : r.hilfsmittel ∈ setA <;> by_cases hB : r.hilfsmittel ∈ setB <;>
    simp [deriveRow, hu, hd, hm, hA, hB, fdiv, fmul, divByZero]

theorem ratio_at_zero_revenue_witness :
    zeroRevRow.umsatzberechnung = num 0 ∧
    (deriveRow zeroRevRow).ratio7 = divByZero 60 ∧ divByZero 60 = inf ∧
    (deriveRow zeroRevRow).ratioApFp = divByZero (-5) ∧ divByZero (-5) = ninf := by
  have h := ratio_at_zero_revenue zeroRevRow 60 (-5) rfl rfl rfl
  exact ⟨rfl, h.1, by decide, h.2.1, by decide⟩

lemma map_kstKey_mergeTables (agg : List AggRow) (right : List AddisonRow) :
    (mergeTables agg right).map (fun m => m.kstKey) = agg.map (fun a => a.kstKey) := by
  induction agg with
  | nil => rfl
  | cons a t ih =>
      show (mergeRow a right).kstKey :: (mergeTables t right).map (fun m => m.kstKey) =
        a.kstKey :: t.map (fun a => a.kstKey)
      rw [mergeRow_kstKey, ih]

lemma map_kstKey_aggregate (rows : List CleanRow) :
    (aggregateFiliale rows).map (fun a => a.kstKey) = kstKeys rows := by
  unfold aggregateFiliale
  generalize kstKeys rows = ks
  induction ks with
  | nil => rfl
  | cons k t ih =>
      show (aggRowFor rows k).kstKey :: (t.map (aggRowFor rows)).map (fun a => a.kstKey) =
        k :: t
      rw [aggRowFor_kstKey, ih]

/-- C9: a row carrying either sentinel category is dropped by step 3
before anything is computed: inserting such a row anywhere into the TopM
input leaves the entire pipeline output — every group sum, every ratio,
every merged row — unchanged. -/
theorem sentinel_rows_dropped (rows₁ rows₂ : List Row) (r : Row)
    (right : List AddisonRow) (h : r.hilfsmittel ∈ sentinelCategories) :
    pipeline (rows₁ ++ r :: rows₂) right = pipeline (rows₁ ++ rows₂) right := by
  have hclean : cleanRows (rows₁ ++ r :: rows₂) = cleanRows (rows₁ ++ rows₂) := by
    simp [cleanRows, List.filter_append, List.filter_cons, h]
  simp [pipeline, deriveTable, hclean]

/-- A row carrying the "all categories" sentinel. -/
def sentinelRow : Row := { sampleRow with hilfsmittel := "Alle Hilfsmittel" }

theorem sentinel_rows_dropped_witness :
    sentinelRow.hilfsmittel ∈ sentinelCategories ∧
    pipeline ([] ++ sentinelRow :: []) [] = pipeline ([] ++ []) [] :=
  ⟨by decide, sentinel_rows_dropped [] [] sentinelRow [] (by decide)⟩

/-- C10: the rows of the merged output are in ascending order of the
`KSt` key (the `String` order, lexicographic in the code points),
whatever the order of the input rows: `groupby` sorts its keys and the
left join preserves the left row order. -/
theorem output_sorted_by_kst (rows : List Row) (right : List AddisonRow) :
    List.Sorted (fun a b => a ≤ b) ((pipeline rows right).map (fun m => m.kstKey)) := by
  have hkeys : (pipeline rows right).map (fun m => m.kstKey) = kstKeys (deriveTable rows) := by
    rw [pipeline, map_kstKey_mergeTables, map_kstKey_aggregate]
  rw [hkeys]
  exact (List.sorted_insertionSort strLe _).imp (fun hab => (strLe_iff_le _ _).mp hab)

/-- C1: every aggregated row carries, in its eleven absolute columns, the
per-group sums of the corresponding pre-aggregation columns, and each of
its four percentage columns is the quotient of the group sum of its
numerator column by the group sum of the revenue column — the quotient of
sums, never a sum or mean of the per-row ratios. -/
theorem aggregated_ratios_from_sums (rows : List CleanRow) (a : AggRow)
    (ha : a ∈ aggregateFiliale rows) :
    a.ratio7 = fdiv (psum ((groupRows rows a.kstKey).map (fun r => r.db1)))
        (psum ((groupRows rows a.kstKey).map (fun r => r.umsatzberechnung))) ∧
    a.ratioApFp = fdiv (psum ((groupRows rows a.kstKey).map (fun r => r.apDb1MitFp)))
        (psum ((groupRows rows a.kstKey).map (fun r => r.umsatzberechnung))) ∧
    a.ratioMod = fdiv (psum ((groupRows rows a.kstKey).map (fun r => r.modifikationen)))
        (psum ((groupRows rows a.kstKey).map (fun r => r.umsatzberechnung))) ∧
    a.ratioMod0932 = fdiv (psum ((groupRows rows a.kstKey).map (fun r => r.mod0932)))
        (psum ((groupRows rows a.kstKey).map (fun r => r.umsatzberechnung))) ∧
    a.umsatzberechnung = psum ((groupRows rows a.kstKey).map (fun r => r.umsatzberechnung)) ∧
    a.db1 = psum ((groupRows rows a.kstKey).map (fun r => r.db1)) ∧
    a.apDb1MitFp = psum ((groupRows rows a.kstKey).map (fun r => r.apDb1MitFp)) ∧
    a.modifikationen = psum ((groupRows rows a.kstKey).map (fun r => r.modifikationen)) ∧
    a.mod0932 = psum ((groupRows rows a.kstKey).map (fun r => r.mod0932)) ∧
    a.auftraege = psum ((groupRows rows a.kstKey).map (fun r => r.auftraege)) ∧
    a.nettoEk = psum ((groupRows rows a.kstKey).map (fun r => r.nettoEk)) ∧
    a.nettoEkOhneWk = psum ((groupRows rows a.kstKey).map (fun r => r.nettoEkOhneWk)) ∧
    a.wkEk = psum ((groupRows rows a.kstKey).map (fun r => r.wkEk)) ∧
    a.apEkVerrechnung = psum ((groupRows rows a.kstKey).map (fun r => r.apEkVerrechnung)) ∧
    a.summe35 = psum ((groupRows rows a.kstKey).map (fun r => r.summe35)) := by
  obtain ⟨k, hk, rfl⟩ := List.mem_map.mp ha
  exact ⟨rfl, rfl, rfl, rfl, rfl, rfl, rfl, rfl, rfl, rfl, rfl, rfl, rfl, rfl, rfl⟩

/-- Two rows of one cost center whose per-row ratios (1/2 and 1/10)
diverge from the quotient of sums (80/400 = 1/5). -/
def c1rowA : Row :=
  { sampleRow with
    filiale := "22222 A"
    umsatzberechnung := num 100
    db1 := num 50
    apDb1MitFp := num 50 }

def c1rowB : Row :=
  { sampleRow with
    filiale := "22222 A"
    umsatzberechnung := num 300
    db1 := num 30
    apDb1MitFp := num 30 }

def c1table : List CleanRow := deriveTable [c1rowA, c1rowB]

theorem aggregated_ratios_from_sums_witness :
    aggRowFor c1table "22222" ∈ aggregateFiliale c1table ∧
    (aggRowFor c1table "22222").ratio7 =
      fdiv (psum ((groupRows c1table "22222").map (fun r => r.db1)))
        (psum ((groupRows c1table "22222").map (fun r => r.umsatzberechnung))) ∧
    (aggRowFor c1table "22222").ratio7 = num (1 / 5) ∧
    psum ((groupRows c1table "22222").map (fun r => r.ratio7)) = num (3 / 5) ∧
    fdiv (psum ((groupRows c1table "22222").map (fun r => r.ratio7))) (num 2) = num (3 / 10) ∧
    num (1 / 5) ≠ num (3 / 5) ∧ num (1 / 5) ≠ num (3 / 10) := by
  have hk : "22222" ∈ kstKeys c1table := by with_unfolding_all decide
  have hmem : aggRowFor c1table "22222" ∈ aggregateFiliale c1table :=
    List.mem_map_of_mem (aggRowFor c1table) hk
  have h := aggregated_ratios_from_sums c1table (aggRowFor c1table "22222") hmem
  exact ⟨hmem, h.1, by with_unfolding_all decide, by with_unfolding_all decide,
    by with_unfolding_all decide, by with_unfolding_all decide, by with_unfolding_all decide⟩

/-- C4 amended: the representative `Filiale` of every aggregated row is a
value of maximal multiplicity among the group's pre-aggregation `Filiale`
values (the mode) and, among the tied modal values, the lexicographically
least one — `Series.mode()` returns the modes in ascending sorted order
and `.iloc[0]` takes the first, so ties are broken by sort order, not by
first occurrence. -/
theorem representative_filiale_mode (rows : List CleanRow) (a : AggRow)
    (ha : a ∈ aggregateFiliale rows) (fl : List String)
    (hfl : fl = (groupRows rows a.kstKey).map (fun r => r.filiale)) :
    a.filiale ∈ fl ∧
    (∀ b ∈ fl, fl.count b ≤ fl.count a.filiale) ∧
    (∀ b ∈ fl, fl.count b = fl.count a.filiale → a.filiale ≤ b) := by
  obtain ⟨k, hk, rfl⟩ := List.mem_map.mp ha
  subst hfl
  have hkd : k ∈ (rows.map CleanRow.kst).dedup :=
    (List.perm_insertionSort strLe (rows.map CleanRow.kst).dedup).mem_iff.mp hk
  obtain ⟨r, hr, hrk⟩ := List.mem_map.mp (List.mem_dedup.mp hkd)
  have hrg : r ∈ groupRows rows k := by
    simp [groupRows, List.mem_filter, hr, hrk]
  have hne : (groupRows rows k).map (fun r => r.filiale) ≠ [] :=
    List.ne_nil_of_mem (List.mem_map_of_mem (fun r => r.filiale) hrg)
  exact modePandas_spec _ hne

/-- Two rows of one cost center with the claim's example tie
`[A, A, B]`. -/
def c4table : List CleanRow :=
  deriveTable
    [{ sampleRow with filiale := "33333 A" },
     { sampleRow with filiale := "33333 A" },
     { sampleRow with filiale := "33333 B" }]

theorem representative_filiale_mode_witness :
    (aggRowFor c4table "33333").filiale = "33333 A" ∧
    ((aggRowFor c4table "33333").filiale ∈
      (groupRows c4table "33333").map (fun r => r.filiale) ∧
    (∀ b ∈ (groupRows c4table "33333").map (fun r => r.filiale),
      ((groupRows c4table "33333").map (fun r => r.filiale)).count b ≤
        ((groupRows c4table "33333").map (fun r => r.filiale)).count
          (aggRowFor c4table "33333").filiale) ∧
    (∀ b ∈ (groupRows c4table "33333").map (fun r => r.filiale),
      ((groupRows c4table "33333").map (fun r => r.filiale)).count b =
        ((groupRows c4table "33333").map (fun r => r.filiale)).count
          (aggRowFor c4table "33333").filiale →
      (aggRowFor c4table "33333").filiale ≤ b)) := by
  have hk : "33333" ∈ kstKeys c4table := by with_unfolding_all decide
  have hmem : aggRowFor c4table "33333" ∈ aggregateFiliale c4table :=
    List.mem_map_of_mem (aggRowFor c4table) hk
  exact ⟨by with_unfolding_all decide,
    representative_filiale_mode c4table (aggRowFor c4table "33333") hmem _ rfl⟩

/-- The tie rule the spec states, written from the spec's words for
comparison: among the values of maximal multiplicity, the first
encountered in original row order. -/
def specFirstMode (l : List String) : String :=
  (l.filter (fun a => l.all (fun b => decide (l.count b ≤ l.count a)))).headD ""

/-- One cost center whose two tied branch labels arrive in descending
order. -/
def c4tieTable : List CleanRow :=
  deriveTable
    [{ sampleRow with filiale := "44444 B" },
     { sampleRow with filiale := "44444 A" }]

/-- C4 counterexample: branch values `["44444 B", "44444 A"]` (in that
row order) tie; the script's representative label is `"44444 A"` — the
sorted-order mode — while the spec's first-occurrence tie rule picks
`"44444 B"`. -/
theorem representative_filiale_counterexample :
    (aggregateFiliale c4tieTable).map (fun a => a.filiale) = ["44444 A"] ∧
    specFirstMode ((groupRows c4tieTable "44444").map (fun r => r.filiale)) = "44444 B" ∧
    ("44444 A" : String) ≠ "44444 B" := by
  refine ⟨by with_unfolding_all decide, by with_unfolding_all decide, by decide⟩

/-- C7: the merge of step 11 is a left outer join from the aggregated TopM
side — every aggregated `KSt` key appears in the merged output, in order,
whatever the right-hand Addison table holds — and a left row with no
matching Addison key gets `Umsatzerlöse = 0` and `Aufwendungen = 0` (the
two `fillna(0)` columns) while `Rohergebnis` and the two `Kum` columns
stay null. -/
theorem merge_left_outer (agg : List AggRow) (right : List AddisonRow) :
    ((mergeTables agg right).map (fun m => m.kstKey) = agg.map (fun a => a.kstKey)) ∧
    (∀ m ∈ mergeTables agg right, (∀ b ∈ right, b.kstKey ≠ m.kstKey) →
      m.umsatzerloese = num 0 ∧ m.aufwendungen = num 0 ∧ m.rohergebnis = nan ∧
      m.umsatzerloeseKum = nan ∧ m.aufwendungenKum = nan) := by
  refine ⟨map_kstKey_mergeTables agg right, ?_⟩
  intro m hm hnone
  obtain ⟨a, ha, rfl⟩ := List.mem_map.mp hm
  have hfind : right.find? (fun b => decide (b.kstKey = a.kstKey)) = none := by
    apply List.find?_eq_none.mpr
    intro b hb
    simpa using hnone b hb
  simp [mergeRow, hfind, fillna0]

/-- A concrete aggregated row for the merge witnesses. -/
def aggSample : AggRow :=
  { kstKey := "55555"
    filiale := "55555 Ort"
    auftraege := num 1
    umsatzberechnung := num 400
    nettoEk := num 100
    nettoEkOhneWk := num 80
    wkEk := num 20
    apEkVerrechnung := num 30
    summe35 := num 100
    db1 := num 300
    apDb1MitFp := num 280
    modifikationen := num 300
    mod0932 := num 300
    ratio7 := num (3 / 4)
    ratioApFp := num (7 / 10)
    ratioMod := num (3 / 4)
    ratioMod0932 := num (3 / 4) }

/-- A reshaped Addison row under a different cost center. -/
def addisonOther : AddisonRow :=
  { kstKey := "66666"
    umsatzerloese := num 500
    aufwendungen := num 100
    rohergebnis := num 400
    umsatzerloeseKum := num 900
    aufwendungenKum := num 200 }

theorem merge_left_outer_witness :
    (mergeTables [aggSample] [addisonOther]).map (fun m => m.kstKey) = ["55555"] ∧
    (mergeRow aggSample [addisonOther]).umsatzerloese = num 0 ∧
    (mergeRow aggSample [addisonOther]).aufwendungen = num 0 ∧
    (mergeRow aggSample [addisonOther]).rohergebnis = nan ∧
    (mergeRow aggSample [addisonOther]).umsatzerloeseKum = nan ∧
    (mergeRow aggSample [addisonOther]).aufwendungenKum = nan := by
  have h := merge_left_outer [aggSample] [addisonOther]
  have hmem : mergeRow aggSample [addisonOther] ∈ mergeTables [aggSample] [addisonOther] :=
    List.mem_map_of_mem (fun a => mergeRow a [addisonOther]) (List.mem_cons_self _ _)
  have h2 := h.2 (mergeRow aggSample [addisonOther]) hmem (by decide)
  exact ⟨h.1, h2.1, h2.2.1, h2.2.2.1, h2.2.2.2.1, h2.2.2.2.2⟩

/-- C8: every merged row's `"Aufwendungen final"` cell is exactly
`round₀(Umsatzerlöse * (1 - "DB I % Modifikationen") + Aufwendungen)`,
computed from the row's own (already `fillna(0)`-ed) columns. -/
theorem aufwendungen_final_formula (agg : List AggRow) (right : List AddisonRow)
    (m : MergedRow) (hm : m ∈ mergeTables agg right) :
    m.aufwendungenFinal =
      fround (fadd (fmul m.umsatzerloese (fsub (num 1) m.ratioMod)) m.aufwendungen) := by
  obtain ⟨a, ha, rfl⟩ := List.mem_map.mp hm
  rfl

def aggRatio25 : AggRow := { aggSample with kstKey := "77777", ratioMod := num (1 / 4) }

def addison77 : AddisonRow :=
  { kstKey := "77777"
    umsatzerloese := num 1000
    aufwendungen := num 200
    rohergebnis := num 800
    umsatzerloeseKum := nan
    aufwendungenKum := nan }

def aggRatio10 : AggRow := { aggSample with kstKey := "88888", ratioMod := num (1 / 10) }

def addison88 : AddisonRow :=
  { kstKey := "88888"
    umsatzerloese := num 333
    aufwendungen := num 50
    rohergebnis := nan
    umsatzerloeseKum := nan
    aufwendungenKum := nan }

set_option maxRecDepth 4000 in
theorem aufwendungen_final_formula_witness :
    (mergeRow aggRatio25 [addison77]).aufwendungenFinal = num 950 ∧
    (mergeRow aggRatio10 [addison88]).aufwendungenFinal = num 350 := by
  have h1 := aufwendungen_final_formula [aggRatio25] [addison77]
    (mergeRow aggRatio25 [addison77])
    (List.mem_map_of_mem (fun a => mergeRow a [addison77]) (List.mem_cons_self _ _))
  have h2 := aufwendungen_final_formula [aggRatio10] [addison88]
    (mergeRow aggRatio10 [addison88])
    (List.mem_map_of_mem (fun a => mergeRow a [addison88]) (List.mem_cons_self _ _))
  exact ⟨h1.trans (by with_unfolding_all decide), h2.trans (by with_unfolding_all decide)⟩

/-- A TopM column list missing both `(6) DB I` and `AP DB I mit FP`. -/
def colsMissingTwo : List String :=
  ["Hilfsmittel", "Filiale", "KSt", "Aufträge", colUmsatz]

/-- A TopM column list missing only `(6) DB I`. -/
def colsMissingOne : List String :=
  ["Hilfsmittel", "Filiale", "KSt", "Aufträge", colUmsatz, colApFp]

/-- C3 counterexample: the script has no schema check.  A table missing
two required columns and a table missing only one produce the *same*
bare `KeyError("(6) DB I =\n(1) - (5)")` — an error naming a single
column — so the failure cannot list the full set of missing required
columns (nor the columns present), contrary to the claimed
`SchemaError`. -/
theorem schema_error_counterexample :
    deriveCols colsMissingTwo = Except.error colDb1 ∧
    deriveCols colsMissingOne = Except.error colDb1 ∧
    colApFp ∉ colsMissingTwo ∧ colApFp ∈ colsMissingOne := by
  refine ⟨by with_unfolding_all rfl, by with_unfolding_all rfl, by decide, by decide⟩

/-- C3 amended: a missing required numeric column makes steps 4–5a fail
with a pandas `KeyError` naming exactly the **first** missing column
read — `(6) DB I` first, then `(1) Umsatz-berechnung`, then `AP DB I mit
FP` (by which point the first ratio column has already been computed, so
the failure is mid-computation) — never an error listing all missing and
present columns. -/
theorem missing_column_keyerror (cols : List String) :
    (colDb1 ∉ cols → deriveCols cols = Except.error colDb1) ∧
    (colDb1 ∈ cols → colUmsatz ∉ cols → deriveCols cols = Except.error colUmsatz) ∧
    (colDb1 ∈ cols → colUmsatz ∈ cols → colApFp ∉ cols →
      deriveCols cols = Except.error colApFp) := by
  refine ⟨fun h6 => ?_, fun h6 h1 => ?_, fun h6 h1 hA => ?_⟩
  · simp [deriveCols, accessScript, runScript, h6]
  · simp [deriveCols, accessScript, runScript, h6, h1]
  · have hx : ¬ colApFp ∈ List.insert colRatio7 cols := by
      intro hmem
      rcases List.mem_insert_iff.mp hmem with h | h
      · exact absurd h (by decide)
      · exact hA h
    simp [deriveCols, accessScript, runScript, h6, h1, hx]

theorem missing_column_keyerror_witness :
    deriveCols colsMissingOne = Except.error colDb1 ∧
    deriveCols ["Hilfsmittel", "Filiale", "KSt", colDb1, colUmsatz] = Except.error colApFp :=
  ⟨(missing_column_keyerror colsMissingOne).1 (by decide),
   (missing_column_keyerror ["Hilfsmittel", "Filiale", "KSt", colDb1, colUmsatz]).2.2
     (by decide) (by decide) (by decide)⟩
